import Mathlib

/-!
Verification of the controller-runtime core: a shallow embedding of the
Manager / Controller / Source / WorkQueue design, with theorems checking the
specification's claims against the code.

Code present in the tree (pkg/controller/source/source.go, pkg/manager/manager.go)
is embedded directly.  Components the tree only references — the client-go
work queue and rate limiter, the controller scheduling loop, and the
source/internal event handler — are modelled from the specification's
description of them; each such definition is marked in its doc comment.
-/

namespace ControllerRuntime

/-- The (namespace, name) pair identifying one logical unit of reconcile work. -/
structure ReconcileKey where
  ns : String
  name : String
  deriving DecidableEq, Repr

/-- Modelled from the spec: the deduplicating WorkQueue of reconcile keys
(client-go workqueue, not in the tree).  `queue` holds pending keys in FIFO
order, `processing` the checked-out keys, `dirty` the keys re-added while
checked out. -/
structure WorkQueue where
  queue : List ReconcileKey
  processing : List ReconcileKey
  dirty : List ReconcileKey
  deriving DecidableEq, Repr

/-- The empty work queue. -/
def WorkQueue.empty : WorkQueue := ⟨[], [], []⟩

/-- Modelled from the spec: Add(key) inserts if absent; no-op if already
queued; if currently checked out, sets the dirty flag for re-delivery on
release. -/
def WorkQueue.add (q : WorkQueue) (k : ReconcileKey) : WorkQueue :=
  if k ∈ q.queue then q
  else if k ∈ q.processing then
    if k ∈ q.dirty then q else { q with dirty := q.dirty ++ [k] }
  else { q with queue := q.queue ++ [k] }

/-- Modelled from the spec: Get() pops the head of the queue and marks the
key checked out; returns none when the queue is empty. -/
def WorkQueue.get (q : WorkQueue) : Option ReconcileKey × WorkQueue :=
  match q.queue with
  | [] => (none, q)
  | k :: rest => (some k, { q with queue := rest, processing := q.processing ++ [k] })

/-- Modelled from the spec: Done(key) releases the checkout; if the key is
dirty, re-adds it and clears the flag. -/
def WorkQueue.done (q : WorkQueue) (k : ReconcileKey) : WorkQueue :=
  let q1 : WorkQueue := { q with processing := q.processing.erase k }
  if k ∈ q1.dirty then
    WorkQueue.add { q1 with dirty := q1.dirty.erase k } k
  else q1

/-- One Add of a key that is not checked out leaves exactly one copy queued
(and does not touch the processing or dirty sets). -/
lemma WorkQueue.add_count_of_not_processing (q : WorkQueue) (k : ReconcileKey)
    (hp : k ∉ q.processing) (hc : q.queue.count k ≤ 1) :
    (q.add k).queue.count k = 1 ∧ (q.add k).processing = q.processing := by
  unfold WorkQueue.add
  by_cases hq : k ∈ q.queue
  · have h1 : 1 ≤ q.queue.count k := List.one_le_count_iff.mpr hq
    simp [hq]
    omega
  · have h0 : q.queue.count k = 0 := List.count_eq_zero.mpr hq
    simp [hq, hp, List.count_append, h0]

/-- Add of an already-queued key is a no-op. -/
lemma WorkQueue.add_mem_queue (q : WorkQueue) (k : ReconcileKey) (hq : k ∈ q.queue) :
    q.add k = q := by
  unfold WorkQueue.add
  simp [hq]

/-- Iterating Add on a key that is not checked out: after at least one call
the queue holds the key exactly once. -/
lemma WorkQueue.iterate_add_count (q : WorkQueue) (k : ReconcileKey) (n : Nat)
    (hp : k ∉ q.processing) (hc : q.queue.count k ≤ 1) (hn : 1 ≤ n) :
    ((fun s => WorkQueue.add s k)^[n] q).queue.count k = 1 ∧
      ((fun s => WorkQueue.add s k)^[n] q).processing = q.processing := by
  induction n with
  | zero => omega
  | succ m ih =>
    rcases Nat.eq_zero_or_pos m with hm | hm
    · subst hm
      simpa using WorkQueue.add_count_of_not_processing q k hp hc
    · obtain ⟨ihc, ihp⟩ := ih hm
      rw [Function.iterate_succ_apply']
      have hp2 : k ∉ ((fun s => WorkQueue.add s k)^[m] q).processing := by
        rw [ihp]; exact hp
      have := WorkQueue.add_count_of_not_processing _ k hp2 (le_of_eq ihc)
      rw [ihp] at this
      exact this

/-- C1: for a key that is not checked out, any number n ≥ 1 of Add(k) calls
leaves k exactly once in the queue; Add of an already-queued key is a no-op. -/
theorem claim_C1_add_dedup (q : WorkQueue) (k : ReconcileKey) (n : Nat)
    (hp : k ∉ q.processing) (hc : q.queue.count k ≤ 1) (hn : 1 ≤ n) :
    ((fun s => WorkQueue.add s k)^[n] q).queue.count k = 1 ∧
      (k ∈ q.queue → q.add k = q) :=
  ⟨(WorkQueue.iterate_add_count q k n hp hc hn).1,
   fun hq => WorkQueue.add_mem_queue q k hq⟩

/-- Witness for C1 at a concrete queue and key: three Adds of an absent,
not-checked-out key leave it queued exactly once. -/
theorem claim_C1_add_dedup_witness :
    ((fun s => WorkQueue.add s ⟨"default", "a"⟩)^[3] WorkQueue.empty).queue.count
        ⟨"default", "a"⟩ = 1 ∧
      (⟨"default", "a"⟩ ∈ WorkQueue.empty.queue →
        WorkQueue.empty.add ⟨"default", "a"⟩ = WorkQueue.empty) :=
  claim_C1_add_dedup WorkQueue.empty ⟨"default", "a"⟩ 3
    (by decide) (by decide) (by decide)

/-- Add of a checked-out key that is neither queued nor dirty sets the dirty
flag and changes nothing else. -/
lemma WorkQueue.add_while_processing (q : WorkQueue) (k : ReconcileKey)
    (hp : k ∈ q.processing) (hq : k ∉ q.queue) (hd : k ∉ q.dirty) :
    q.add k = { q with dirty := q.dirty ++ [k] } := by
  unfold WorkQueue.add
  simp [hp, hq, hd]

/-- Add of a checked-out key that is already dirty is a no-op. -/
lemma WorkQueue.add_while_processing_dirty (q : WorkQueue) (k : ReconcileKey)
    (hp : k ∈ q.processing) (hq : k ∉ q.queue) (hd : k ∈ q.dirty) :
    q.add k = q := by
  unfold WorkQueue.add
  simp [hp, hq, hd]

/-- Iterating Add n ≥ 1 times on a checked-out key: the first call sets the
dirty flag, every later call is a no-op. -/
lemma WorkQueue.iterate_add_processing (q : WorkQueue) (k : ReconcileKey) (n : Nat)
    (hp : k ∈ q.processing) (hq : k ∉ q.queue) (hd : k ∉ q.dirty) (hn : 1 ≤ n) :
    (fun s => WorkQueue.add s k)^[n] q = { q with dirty := q.dirty ++ [k] } := by
  induction n with
  | zero => omega
  | succ m ih =>
    rcases Nat.eq_zero_or_pos m with hm | hm
    · subst hm
      simpa using WorkQueue.add_while_processing q k hp hq hd
    · rw [Function.iterate_succ_apply', ih hm]
      exact WorkQueue.add_while_processing_dirty _ k hp hq (by simp)

/-- C2: a key checked out exactly once, re-added any number n ≥ 1 of times
during the checkout, is requeued exactly once by Done, with the dirty flag
cleared and the checkout released. -/
theorem claim_C2_dirty_redelivery (q : WorkQueue) (k : ReconcileKey) (n : Nat)
    (hp : q.processing.count k = 1) (hq : k ∉ q.queue) (hd : k ∉ q.dirty)
    (hn : 1 ≤ n) :
    (((fun s => WorkQueue.add s k)^[n] q).done k).queue.count k = 1 ∧
      k ∉ (((fun s => WorkQueue.add s k)^[n] q).done k).dirty ∧
      k ∉ (((fun s => WorkQueue.add s k)^[n] q).done k).processing := by
  have hpm : k ∈ q.processing := by
    have : 0 < q.processing.count k := by omega
    exact List.one_le_count_iff.mp this
  rw [WorkQueue.iterate_add_processing q k n hpm hq hd hn]
  have herase : k ∉ q.processing.erase k := by
    have : (q.processing.erase k).count k = 0 := by
      rw [List.count_erase_self, hp]
    exact List.count_eq_zero.mp this
  have hq0 : q.queue.count k = 0 := List.count_eq_zero.mpr hq
  have hd0 : q.dirty.count k = 0 := List.count_eq_zero.mpr hd
  unfold WorkQueue.done WorkQueue.add
  have hdek : k ∉ (q.dirty ++ [k]).erase k := by
    have : ((q.dirty ++ [k]).erase k).count k = 0 := by
      rw [List.count_erase_self, List.count_append, hd0]
      simp
    exact List.count_eq_zero.mp this
  simp [hq, herase, hdek, List.count_append, hq0]

/-- Witness for C2: a key checked out once, re-added twice while checked out,
is re-delivered exactly once by Done. -/
theorem claim_C2_dirty_redelivery_witness :
    ((((fun s => WorkQueue.add s ⟨"default", "a"⟩)^[2]
          (⟨[], [⟨"default", "a"⟩], []⟩ : WorkQueue)).done
        ⟨"default", "a"⟩).queue.count ⟨"default", "a"⟩ = 1 ∧
      (⟨"default", "a"⟩ : ReconcileKey) ∉
        ((((fun s => WorkQueue.add s ⟨"default", "a"⟩)^[2]
            (⟨[], [⟨"default", "a"⟩], []⟩ : WorkQueue)).done ⟨"default", "a"⟩).dirty) ∧
      (⟨"default", "a"⟩ : ReconcileKey) ∉
        ((((fun s => WorkQueue.add s ⟨"default", "a"⟩)^[2]
            (⟨[], [⟨"default", "a"⟩], []⟩ : WorkQueue)).done ⟨"default", "a"⟩).processing)) :=
  claim_C2_dirty_redelivery ⟨[], [⟨"default", "a"⟩], []⟩ ⟨"default", "a"⟩ 2
    (by decide) (by decide) (by decide) (by decide)

/-- Modelled from the spec: the per-key exponential-backoff rate limiter
behind AddRateLimited (client-go, not in the tree).  `failures` counts
consecutive failures per key; a delay is base · 2^failures capped at the
maximum. -/
structure RateLimiter where
  baseDelay : Nat
  maxDelay : Nat
  failures : ReconcileKey → Nat

/-- Modelled from the spec: the delay the limiter assigns to the next
AddRateLimited(k), together with the limiter state after recording one more
consecutive failure for k. -/
def RateLimiter.when (r : RateLimiter) (k : ReconcileKey) : Nat × RateLimiter :=
  (min (r.baseDelay * 2 ^ r.failures k) r.maxDelay,
   { r with failures := fun k2 => if k2 = k then r.failures k2 + 1 else r.failures k2 })

/-- Modelled from the spec: Forget(key) clears the backoff history for that
key only. -/
def RateLimiter.forget (r : RateLimiter) (k : ReconcileKey) : RateLimiter :=
  { r with failures := fun k2 => if k2 = k then 0 else r.failures k2 }

/-- C3: consecutive AddRateLimited delays for one key are non-decreasing
(doubling before the cap, clamped at the cap), Forget resets the next delay
to the base, and the backoff history of one key never affects another key. -/
theorem claim_C3_backoff (r : RateLimiter) (k k2 : ReconcileKey)
    (hbase : r.baseDelay ≤ r.maxDelay) (hne : k2 ≠ k) :
    (r.when k).1 ≤ ((r.when k).2.when k).1 ∧
      ((r.when k).2.when k).1 = min (r.baseDelay * 2 ^ (r.failures k + 1)) r.maxDelay ∧
      ((r.forget k).when k).1 = r.baseDelay ∧
      (r.when k).2.failures k2 = r.failures k2 ∧
      ((r.when k).2.when k2).1 = (r.when k2).1 := by
  refine ⟨?_, ?_, ?_, ?_, ?_⟩
  · unfold RateLimiter.when
    simp only
    have : r.baseDelay * 2 ^ r.failures k ≤ r.baseDelay * 2 ^ (r.failures k + 1) := by
      exact Nat.mul_le_mul_left _ (Nat.pow_le_pow_right (by omega) (by omega))
    exact min_le_min this le_rfl
  · unfold RateLimiter.when
    simp
  · unfold RateLimiter.when RateLimiter.forget
    simp [Nat.min_eq_left hbase]
  · unfold RateLimiter.when
    simp [hne]
  · unfold RateLimiter.when
    simp [hne]

/-- Witness for C3 at a concrete limiter (base 5, cap 1000, fresh history)
and two distinct keys. -/
theorem claim_C3_backoff_witness :
    ((⟨5, 1000, fun _ => 0⟩ : RateLimiter).when ⟨"d", "a"⟩).1 ≤
        (((⟨5, 1000, fun _ => 0⟩ : RateLimiter).when ⟨"d", "a"⟩).2.when ⟨"d", "a"⟩).1 ∧
      (((⟨5, 1000, fun _ => 0⟩ : RateLimiter).when ⟨"d", "a"⟩).2.when ⟨"d", "a"⟩).1 =
        min (5 * 2 ^ ((fun (_ : ReconcileKey) => 0) ⟨"d", "a"⟩ + 1)) 1000 ∧
      (((⟨5, 1000, fun _ => 0⟩ : RateLimiter).forget ⟨"d", "a"⟩).when ⟨"d", "a"⟩).1 = 5 ∧
      ((⟨5, 1000, fun _ => 0⟩ : RateLimiter).when ⟨"d", "a"⟩).2.failures ⟨"d", "b"⟩ =
        (fun (_ : ReconcileKey) => 0) ⟨"d", "b"⟩ ∧
      (((⟨5, 1000, fun _ => 0⟩ : RateLimiter).when ⟨"d", "a"⟩).2.when ⟨"d", "b"⟩).1 =
        ((⟨5, 1000, fun _ => 0⟩ : RateLimiter).when ⟨"d", "b"⟩).1 :=
  claim_C3_backoff ⟨5, 1000, fun _ => 0⟩ ⟨"d", "a"⟩ ⟨"d", "b"⟩
    (by decide) (by decide)

/-- Lifecycle states of a Controller: Created → WaitingForSync → Running →
Stopped. -/
inductive ControllerState
  | created
  | waitingForSync
  | running
  | stopped
  deriving DecidableEq, Repr

/-- Modelled from the spec: a Controller owns a work queue, a concurrency
level, and a count of spawned worker loops (0 until Running). -/
structure Controller where
  state : ControllerState
  maxConcurrentReconciles : Nat
  workers : Nat
  deriving DecidableEq, Repr

/-- Modelled from the spec: `Controller.Start` (the controller scheduling
loop is not in the tree; its test drives the injected `waitForCache` to
return false and expects an error mentioning "caches to sync").  Start first
waits for every source's cache to sync; on failure it returns an error and
never reaches Running, spawning no workers; on success it spawns exactly
MaxConcurrentReconciles worker loops and runs. -/
def Controller.start (c : Controller) (cacheSynced : Bool) : Controller × Option String :=
  if cacheSynced then
    ({ c with state := ControllerState.running, workers := c.maxConcurrentReconciles }, none)
  else
    ({ c with state := ControllerState.waitingForSync },
     some "failed waiting for caches to sync")

/-- Modelled from the spec: starting a list of controllers, each with its own
cache-sync outcome. -/
def startAll (cs : List (Controller × Bool)) : List (Controller × Option String) :=
  cs.map (fun p => Controller.start p.1 p.2)

/-- C4: a controller whose cache sync fails gets an error from Start, never
reaches Running, and spawns no worker loops; in a list of controllers the
outcome of every other controller is unchanged by the failing one. -/
theorem claim_C4_sync_failure_fatal (c : Controller)
    (l1 l2 : List (Controller × Bool)) :
    (c.start false).2 = some "failed waiting for caches to sync" ∧
      (c.start false).1.state ≠ ControllerState.running ∧
      (c.start false).1.workers = c.workers ∧
      startAll (l1 ++ (c, false) :: l2) = startAll l1 ++ c.start false :: startAll l2 := by
  refine ⟨rfl, ?_, rfl, ?_⟩
  · unfold Controller.start
    simp
  · unfold startAll
    simp

/-- Identity metadata of one object: its namespace and name. -/
structure ObjMeta where
  ns : String
  name : String
  deriving DecidableEq, Repr

/-- The tagged event variant delivered by Sources: Created, Updated, Deleted,
Generic, each carrying the object payload. -/
inductive Event
  | created (o : ObjMeta)
  | updated (old new : ObjMeta)
  | deleted (o : ObjMeta)
  | generic (o : ObjMeta)
  deriving DecidableEq, Repr

/-- A Predicate is a pure boolean filter over one event. -/
abbrev Predicate := Event → Bool

/-- An EventHandler supplies one mapping per event kind from the event to
zero or more reconcile keys (the shape of eventhandler.Funcs). -/
structure EventHandler where
  onCreate : ObjMeta → List ReconcileKey
  onUpdate : ObjMeta → ObjMeta → List ReconcileKey
  onDelete : ObjMeta → List ReconcileKey
  onGeneric : ObjMeta → List ReconcileKey

/-- The keys an EventHandler produces for one event. -/
def EventHandler.keysFor (h : EventHandler) (e : Event) : List ReconcileKey :=
  match e with
  | Event.created o => h.onCreate o
  | Event.updated old new => h.onUpdate old new
  | Event.deleted o => h.onDelete o
  | Event.generic o => h.onGeneric o

/-- The EnqueueHandler variant: reconcile the event's own object. -/
def enqueueHandler : EventHandler :=
  ⟨fun o => [⟨o.ns, o.name⟩], fun _ new => [⟨new.ns, new.name⟩],
   fun o => [⟨o.ns, o.name⟩], fun o => [⟨o.ns, o.name⟩]⟩

/-- Modelled from the spec: the composed handler source/internal.EventHandler
(not in the tree) that a Source registers — it applies every predicate to the
event and, only if all pass, lets the EventHandler push each produced key
into the work queue via Add.  The Go struct also stores the destination
Queue; here the queue state is supplied at delivery time. -/
structure InternalHandler where
  handler : EventHandler
  predicates : List Predicate

/-- Modelled from the spec: delivering one event through the composed
handler into a work queue. -/
def InternalHandler.handle (ih : InternalHandler) (e : Event) (q : WorkQueue) : WorkQueue :=
  if ih.predicates.all (fun p => p e) then
    (ih.handler.keysFor e).foldl WorkQueue.add q
  else q

/-- C7: the composed handler delivers an event to the EventHandler if and
only if every attached predicate returns true on it; if any predicate
returns false the queue is left untouched. -/
theorem claim_C7_predicates_and (ih : InternalHandler) (e : Event) (q : WorkQueue) :
    ((∀ p ∈ ih.predicates, p e = true) →
      ih.handle e q = (ih.handler.keysFor e).foldl WorkQueue.add q) ∧
      ((∃ p ∈ ih.predicates, p e = false) → ih.handle e q = q) := by
  constructor
  · intro hall
    unfold InternalHandler.handle
    have : ih.predicates.all (fun p => p e) = true := List.all_eq_true.mpr hall
    simp [this]
  · rintro ⟨p, hp, hpe⟩
    unfold InternalHandler.handle
    have : ih.predicates.all (fun p => p e) = false := by
      rw [List.all_eq_false]
      exact ⟨p, hp, by simp [hpe]⟩
    simp [this]

/-- Witness for C7: with one always-true predicate the event's key is
enqueued; with one always-false predicate the queue stays untouched. -/
theorem claim_C7_predicates_and_witness :
    (InternalHandler.handle ⟨enqueueHandler, [fun _ => true]⟩
        (Event.created ⟨"d", "a"⟩) WorkQueue.empty =
      (enqueueHandler.keysFor (Event.created ⟨"d", "a"⟩)).foldl WorkQueue.add
        WorkQueue.empty) ∧
      (InternalHandler.handle ⟨enqueueHandler, [fun _ => false]⟩
          (Event.created ⟨"d", "a"⟩) WorkQueue.empty = WorkQueue.empty) :=
  ⟨(claim_C7_predicates_and ⟨enqueueHandler, [fun _ => true]⟩
      (Event.created ⟨"d", "a"⟩) WorkQueue.empty).1 (by simp),
   (claim_C7_predicates_and ⟨enqueueHandler, [fun _ => false]⟩
      (Event.created ⟨"d", "a"⟩) WorkQueue.empty).2
     ⟨fun _ => false, by simp⟩⟩

/-- The identifier of a watched object type (the role of KindSource.Type). -/
abbrev TypeId := String

/-- Modelled from the spec: the Informers dependency (pkg/internal/informer,
not in the tree).  `InformerFor` may fail (the FakeInformers test double
carries an Error field for exactly this); `registered` is the per-type set
of composed handlers accumulated by AddEventHandler. -/
structure InformersState where
  lookupError : Option String
  registered : TypeId → List InternalHandler

/-- Modelled from the spec: Informer.AddEventHandler — append one composed
handler to the informer's handler set for the given type. -/
def InformersState.addHandler (inf : InformersState) (t : TypeId)
    (ih : InternalHandler) : InformersState :=
  { inf with registered := fun t2 =>
      if t2 = t then inf.registered t2 ++ [ih] else inf.registered t2 }

/-- Modelled from the spec: the informer's delivery thread hands one event
for type t to every handler registered for t, in registration order. -/
def InformersState.deliver (inf : InformersState) (t : TypeId) (e : Event)
    (q : WorkQueue) : WorkQueue :=
  (inf.registered t).foldl (fun qq ih => ih.handle e qq) q

/-- KindSource: a source of events for one object type, watched through the
injected Informers. -/
structure KindSource where
  type : Option TypeId
  informers : Option InformersState

/-- KindSource.Start from source.go: error if Type was not specified; error
if Informers was not injected; look up the informer for the type (which may
fail) and register the composed handler (EventHandler plus predicates) with
it.  The Go signature also carries the destination queue, stored inside the
composed handler; in this embedding the queue state is supplied at delivery
time. -/
def KindSource.start (ks : KindSource) (handler : EventHandler)
    (prct : List Predicate) : Except String InformersState :=
  match ks.type with
  | none => Except.error "must specify KindSource.Type"
  | some t =>
    match ks.informers with
    | none => Except.error "must call DoInformers on KindSource before calling Start"
    | some inf =>
      match inf.lookupError with
      | some e => Except.error e
      | none => Except.ok (inf.addHandler t ⟨handler, prct⟩)

/-- KindSource.InjectInformers from source.go: set the informers dependency
only if it is still unset, and always return nil. -/
def KindSource.injectInformers (ks : KindSource) (i : InformersState) :
    KindSource × Option String :=
  (if ks.informers.isNone then { ks with informers := some i } else ks, none)

/-- ChannelSource: a channel of generic events fed from outside the cluster.
`registered` is the set of handlers draining the channel (nothing in
source.go ever adds to it). -/
structure ChannelSource where
  registered : List InternalHandler

/-- ChannelSource.Start from source.go: the body is literally `return nil` —
no handler is registered anywhere, nothing about the source changes. -/
def ChannelSource.start (cs : ChannelSource) (handler : EventHandler)
    (prct : List Predicate) : Except String ChannelSource :=
  Except.ok cs

/-- Modelled from the spec: an event arriving on the channel reaches exactly
the handlers registered to drain it. -/
def ChannelSource.deliver (cs : ChannelSource) (e : Event) (q : WorkQueue) :
    WorkQueue :=
  cs.registered.foldl (fun qq ih => ih.handle e qq) q

/-- C5 fails as stated: ChannelSource.Start succeeds while registering
nothing, so an event arriving on the channel afterwards does not reach the
handler (whose keys never enter the queue), at a fully concrete input. -/
theorem claim_C5_counterexample :
    ChannelSource.start ⟨[]⟩ enqueueHandler [] = Except.ok ⟨[]⟩ ∧
      enqueueHandler.keysFor (Event.generic ⟨"d", "a"⟩) ≠ [] ∧
      ChannelSource.deliver ⟨[]⟩ (Event.generic ⟨"d", "a"⟩) WorkQueue.empty =
        WorkQueue.empty := by
  refine ⟨rfl, ?_, rfl⟩
  simp [enqueueHandler, EventHandler.keysFor]

/-- C5 amended: KindSource.Start (with Type set, Informers injected, and the
informer lookup succeeding) registers the composed handler against the
informer for its type and returns success, and an event for that type
arriving at the informer afterwards reaches the newly registered handler. -/
theorem claim_C5_kind_source_registers (t : TypeId) (inf : InformersState)
    (handler : EventHandler) (prct : List Predicate)
    (hok : inf.lookupError = none) :
    ∃ inf2, KindSource.start ⟨some t, some inf⟩ handler prct = Except.ok inf2 ∧
      inf2.registered t = inf.registered t ++ [⟨handler, prct⟩] ∧
      ∀ e q, inf2.deliver t e q =
        InternalHandler.handle ⟨handler, prct⟩ e (inf.deliver t e q) := by
  refine ⟨inf.addHandler t ⟨handler, prct⟩, ?_, ?_, ?_⟩
  · simp [KindSource.start, hok]
  · unfold InformersState.addHandler
    simp
  · intro e q
    unfold InformersState.deliver InformersState.addHandler
    simp [List.foldl_append]

/-- Witness for the amended C5 at a concrete type, informer state, handler
and predicate list. -/
theorem claim_C5_kind_source_registers_witness :
    ∃ inf2,
      KindSource.start ⟨some "Pod", some ⟨none, fun _ => []⟩⟩ enqueueHandler [] =
          Except.ok inf2 ∧
        inf2.registered "Pod" =
          (fun (_ : TypeId) => ([] : List InternalHandler)) "Pod" ++
            [⟨enqueueHandler, []⟩] ∧
        ∀ e q, inf2.deliver "Pod" e q =
          InternalHandler.handle ⟨enqueueHandler, []⟩ e
            (InformersState.deliver ⟨none, fun _ => []⟩ "Pod" e q) :=
  claim_C5_kind_source_registers "Pod" ⟨none, fun _ => []⟩ enqueueHandler [] rfl

/-- An opaque rest.Config value (only identity matters to the claims). -/
structure Config where
  id : Nat
  deriving DecidableEq, Repr

/-- An opaque runtime.Scheme value. -/
structure Scheme where
  id : Nat
  deriving DecidableEq, Repr

/-- Modelled from the spec: the client-go default scheme singleton
(kubernetes/scheme.Scheme), used when Options.Scheme is nil. -/
def defaultScheme : Scheme := ⟨0⟩

/-- An opaque meta.RESTMapper value. -/
structure RESTMapper where
  id : Nat
  deriving DecidableEq, Repr

/-- Modelled from the spec: apiutil.NewDiscoveryRESTMapper (not in the
tree) — the default discovery-based mapper provider, deriving a mapper from
the config. -/
def defaultMapperProvider : Config → Except String RESTMapper :=
  fun c => Except.ok ⟨c.id⟩

/-- client.Options: the scheme and mapper handed to the client constructor. -/
structure ClientOptions where
  scheme : Scheme
  mapper : RESTMapper
  deriving DecidableEq, Repr

/-- cache.Options: the scheme and mapper handed to the cache constructor. -/
structure CacheOptions where
  scheme : Scheme
  mapper : RESTMapper
  deriving DecidableEq, Repr

/-- Modelled from the spec: the write client — its operations are requests
sent over the network to the remote store; `sent` logs them. -/
structure WriteClient where
  scheme : Scheme
  sent : List String
  deriving DecidableEq, Repr

/-- A Create write: one request to the remote store. -/
def WriteClient.create (w : WriteClient) (o : ObjMeta) : WriteClient :=
  { w with sent := w.sent ++ ["create " ++ o.ns ++ "/" ++ o.name] }

/-- An Update write: one request to the remote store. -/
def WriteClient.update (w : WriteClient) (o : ObjMeta) : WriteClient :=
  { w with sent := w.sent ++ ["update " ++ o.ns ++ "/" ++ o.name] }

/-- A Delete write: one request to the remote store. -/
def WriteClient.del (w : WriteClient) (o : ObjMeta) : WriteClient :=
  { w with sent := w.sent ++ ["delete " ++ o.ns ++ "/" ++ o.name] }

/-- Modelled from the spec: client.New — the default write-client
constructor, recording the scheme it was built with. -/
def defaultNewClient : Config → ClientOptions → Except String WriteClient :=
  fun _ o => Except.ok ⟨o.scheme, []⟩

/-- Modelled from the spec: the Cache — a purely in-memory mirror serving
reads; `store` is the mirrored object set. -/
structure Cache where
  scheme : Scheme
  store : List (ReconcileKey × ObjMeta)
  deriving DecidableEq, Repr

/-- A cached Get: a pure lookup in the in-memory store. -/
def Cache.get (c : Cache) (k : ReconcileKey) : Option ObjMeta :=
  (c.store.find? (fun p => decide (p.1 = k))).map Prod.snd

/-- A cached List: the in-memory store's contents. -/
def Cache.list (c : Cache) : List ObjMeta :=
  c.store.map Prod.snd

/-- Modelled from the spec: cache.New — the default cache constructor,
recording the scheme it was built with. -/
def defaultNewCache : Config → CacheOptions → Except String Cache :=
  fun _ o => Except.ok ⟨o.scheme, []⟩

/-- client.DelegatingClient from manager.go line 133: a composite of the
Cache as read interface and the write client as write interface. -/
structure DelegatingClient where
  readInterface : Cache
  writeInterface : WriteClient
  deriving DecidableEq, Repr

/-- Modelled from the spec: a DelegatingClient Get is answered by the read
interface (the in-memory Cache). -/
def DelegatingClient.get (dc : DelegatingClient) (k : ReconcileKey) : Option ObjMeta :=
  dc.readInterface.get k

/-- Modelled from the spec: a DelegatingClient List is answered by the read
interface (the in-memory Cache). -/
def DelegatingClient.list (dc : DelegatingClient) : List ObjMeta :=
  dc.readInterface.list

/-- Modelled from the spec: a DelegatingClient Create goes to the write
client. -/
def DelegatingClient.create (dc : DelegatingClient) (o : ObjMeta) : DelegatingClient :=
  { dc with writeInterface := dc.writeInterface.create o }

/-- Modelled from the spec: a DelegatingClient Update goes to the write
client. -/
def DelegatingClient.update (dc : DelegatingClient) (o : ObjMeta) : DelegatingClient :=
  { dc with writeInterface := dc.writeInterface.update o }

/-- Modelled from the spec: a DelegatingClient Delete goes to the write
client. -/
def DelegatingClient.del (dc : DelegatingClient) (o : ObjMeta) : DelegatingClient :=
  { dc with writeInterface := dc.writeInterface.del o }

/-- The controllerManager built by New: config, scheme, cache, field
indexes (the cache itself), and the delegating client. -/
structure ControllerManager where
  config : Config
  scheme : Scheme
  cache : Cache
  fieldIndexes : Cache
  client : DelegatingClient
  deriving DecidableEq, Repr

/-- Options from manager.go: the user-supplied scheme and mapper provider,
plus the mockable newCache / newClient constructors. -/
structure Options where
  scheme : Option Scheme
  mapperProvider : Option (Config → Except String RESTMapper)
  newCache : Option (Config → CacheOptions → Except String Cache)
  newClient : Option (Config → ClientOptions → Except String WriteClient)

/-- New from manager.go: error on nil config; default the scheme to the
client-go scheme and the mapper provider to the discovery mapper; run the
mapper provider, the write-client constructor and the cache constructor in
that order, propagating the first error; on success wire fieldIndexes to the
cache and the client to DelegatingClient over (cache, write client). -/
def New (config : Option Config) (options : Options) : Except String ControllerManager :=
  match config with
  | none => Except.error "must specify Config"
  | some cfg =>
    let sch := options.scheme.getD defaultScheme
    match (options.mapperProvider.getD defaultMapperProvider) cfg with
    | Except.error e => Except.error e
    | Except.ok mapper =>
      match (options.newClient.getD defaultNewClient) cfg ⟨sch, mapper⟩ with
      | Except.error e => Except.error e
      | Except.ok writeObj =>
        match (options.newCache.getD defaultNewCache) cfg ⟨sch, mapper⟩ with
        | Except.error e => Except.error e
        | Except.ok c => Except.ok ⟨cfg, sch, c, c, ⟨c, writeObj⟩⟩

/-- C6: setup errors are fatal and synchronous — New with a nil Config, a
failing MapperProvider, or a failing client constructor returns an error
from the constructing call, and KindSource.Start with a nil Type or with no
injected Informers returns an error without registering any handler. -/
theorem claim_C6_setup_errors (opts : Options) (cfg : Config) (e1 e2 e3 : String)
    (s : Option Scheme) (m : RESTMapper)
    (nca : Option (Config → CacheOptions → Except String Cache))
    (ncl : Option (Config → ClientOptions → Except String WriteClient))
    (i : InformersState) (t : TypeId) (handler : EventHandler)
    (prct : List Predicate) :
    New none opts = Except.error "must specify Config" ∧
      New (some cfg) ⟨s, some (fun _ => Except.error e1), nca, ncl⟩ =
        Except.error e1 ∧
      New (some cfg) ⟨s, some (fun _ => Except.ok m), nca,
          some (fun _ _ => Except.error e2)⟩ = Except.error e2 ∧
      New (some cfg) ⟨s, some (fun _ => Except.ok m),
          some (fun _ _ => Except.error e3), some (fun _ _ => Except.ok ⟨defaultScheme, []⟩)⟩ =
        Except.error e3 ∧
      KindSource.start ⟨none, some i⟩ handler prct =
        Except.error "must specify KindSource.Type" ∧
      KindSource.start ⟨some t, none⟩ handler prct =
        Except.error "must call DoInformers on KindSource before calling Start" :=
  ⟨rfl, rfl, rfl, rfl, rfl, rfl⟩

/-- C9: KindSource.InjectInformers is first-wins and never fails — it sets
the informers only when still unset, leaves an already-set value unchanged
on any later call even with a different argument, and always returns nil. -/
theorem claim_C9_inject_informers_first_wins (t : Option TypeId)
    (ks : KindSource) (i i2 j : InformersState) :
    (ks.injectInformers i).2 = none ∧
      KindSource.injectInformers ⟨t, none⟩ i = (⟨t, some i⟩, none) ∧
      KindSource.injectInformers ⟨t, some j⟩ i = (⟨t, some j⟩, none) ∧
      ((KindSource.injectInformers
          (KindSource.injectInformers ⟨t, none⟩ i).1 i2).1.informers = some i) := by
  refine ⟨?_, rfl, rfl, rfl⟩
  unfold KindSource.injectInformers
  by_cases h : ks.informers.isNone <;> simp [h]

/-- C8: on a successful New, the manager's client delegates reads (Get,
List) to the in-memory Cache — a pure lookup, no request sent — and writes
(Create, Update, Delete) to the separately constructed write client. -/
theorem claim_C8_reads_from_cache (config : Option Config) (opts : Options)
    (cm : ControllerManager) (h : New config opts = Except.ok cm) :
    cm.client.readInterface = cm.cache ∧
      (∀ k, cm.client.get k = cm.cache.get k) ∧
      cm.client.list = cm.cache.list ∧
      (∀ o, (cm.client.create o).readInterface = cm.cache ∧
        (cm.client.create o).writeInterface = cm.client.writeInterface.create o) ∧
      (∀ o, (cm.client.update o).readInterface = cm.cache ∧
        (cm.client.update o).writeInterface = cm.client.writeInterface.update o) ∧
      (∀ o, (cm.client.del o).readInterface = cm.cache ∧
        (cm.client.del o).writeInterface = cm.client.writeInterface.del o) := by
  match config with
  | none => simp [New] at h
  | some cfg =>
    simp only [New] at h
    split at h
    · simp at h
    · split at h
      · simp at h
      · split at h
        · simp at h
        · simp only [Except.ok.injEq] at h
          subst h
          refine ⟨rfl, fun k => rfl, rfl, fun o => ⟨rfl, rfl⟩,
            fun o => ⟨rfl, rfl⟩, fun o => ⟨rfl, rfl⟩⟩

/-- The manager New builds from config 1 with all-default options. -/
def exampleManager : ControllerManager :=
  ⟨⟨1⟩, defaultScheme, ⟨defaultScheme, []⟩, ⟨defaultScheme, []⟩,
   ⟨⟨defaultScheme, []⟩, ⟨defaultScheme, []⟩⟩⟩

/-- Witness for C8 at the concrete manager built by New from config 1 with
all-default options. -/
theorem claim_C8_reads_from_cache_witness :
    exampleManager.client.readInterface = exampleManager.cache ∧
      (∀ k, exampleManager.client.get k = exampleManager.cache.get k) ∧
      exampleManager.client.list = exampleManager.cache.list ∧
      (∀ o, (exampleManager.client.create o).readInterface = exampleManager.cache ∧
        (exampleManager.client.create o).writeInterface =
          exampleManager.client.writeInterface.create o) ∧
      (∀ o, (exampleManager.client.update o).readInterface = exampleManager.cache ∧
        (exampleManager.client.update o).writeInterface =
          exampleManager.client.writeInterface.update o) ∧
      (∀ o, (exampleManager.client.del o).readInterface = exampleManager.cache ∧
        (exampleManager.client.del o).writeInterface =
          exampleManager.client.writeInterface.del o) :=
  claim_C8_reads_from_cache (some ⟨1⟩) ⟨none, none, none, none⟩ exampleManager rfl

/-- C10: a nil Options.Scheme is replaced by the client-go default scheme
and a nil Options.MapperProvider by the discovery mapper — New behaves
exactly as if the defaults had been passed — and on success every dependent
component (manager, cache, write client) carries the defaulted scheme. -/
theorem claim_C10_defaults (cfg : Config) (s : Option Scheme)
    (mp : Option (Config → Except String RESTMapper))
    (nca : Option (Config → CacheOptions → Except String Cache))
    (ncl : Option (Config → ClientOptions → Except String WriteClient)) :
    New (some cfg) ⟨none, mp, nca, ncl⟩ =
        New (some cfg) ⟨some defaultScheme, mp, nca, ncl⟩ ∧
      New (some cfg) ⟨s, none, nca, ncl⟩ =
        New (some cfg) ⟨s, some defaultMapperProvider, nca, ncl⟩ ∧
      (∀ cm, New (some cfg) ⟨none, none, none, none⟩ = Except.ok cm →
        cm.scheme = defaultScheme ∧ cm.cache.scheme = defaultScheme ∧
          cm.client.writeInterface.scheme = defaultScheme) := by
  refine ⟨rfl, rfl, fun cm h => ?_⟩
  have : cm = ⟨cfg, defaultScheme, ⟨defaultScheme, []⟩, ⟨defaultScheme, []⟩,
      ⟨⟨defaultScheme, []⟩, ⟨defaultScheme, []⟩⟩⟩ := by
    simpa [New, defaultMapperProvider, defaultNewClient, defaultNewCache,
      Option.getD, eq_comm] using h
  subst this
  exact ⟨rfl, rfl, rfl⟩

/-- Witness for C10 at config 1: New with all-nil options yields the
defaulted manager, whose scheme, cache scheme and client scheme are the
client-go default. -/
theorem claim_C10_defaults_witness :
    exampleManager.scheme = defaultScheme ∧
      exampleManager.cache.scheme = defaultScheme ∧
      exampleManager.client.writeInterface.scheme = defaultScheme :=
  (claim_C10_defaults ⟨1⟩ none none none none).2.2 exampleManager rfl

end ControllerRuntime
